import Mathlib

/-!
Shallow embedding of the job registry and transcription engine of the
Grabadora/Transcriptor repository.

Sources embedded here:
  * src/transcriptor/api/jobs.py   — JobStatus, JobArtifact, JobRecord, JobStore
  * src/transcriptor/transcription/engine.py — ModelProvider, Transcriber
  * src/transcriptor/api/app.py    — the background job runner (success path)

Modelling conventions:
  * Python dicts are insertion-ordered association lists; assignment keeps an
    existing key in place, otherwise appends (dictSet / dictGet / dictErase).
  * datetimes are integer epoch timestamps; `isoformat`/`fromisoformat`
    round-trips a datetime exactly, so serialisation of a timestamp is the
    identity on the integer.
  * Python floats appearing in records are modelled as rationals; a JSON
    round-trip of such a number is value-preserving.
  * operations that index `self._jobs[job_id]` raise KeyError on an absent
    id; they are embedded as Option-returning functions (none = KeyError).
  * the filesystem is the `disk` field of the store: one entry per per-job
    directory, keyed by job id, holding the manifest; rmtree/unlink remove
    the entry.  Filesystem primitives are modelled as succeeding.
-/

/-- `Any`-typed JSON-serialisable values that appear in job metadata and
summary payloads. -/
inductive MVal where
  | s : String → MVal
  | n : Rat → MVal
  | b : Bool → MVal
  | list : List String → MVal
deriving DecidableEq

/-- Lookup in a Python dict (first matching key). -/
def dictGet {α : Type} (k : String) : List (String × α) → Option α
  | [] => none
  | (k', v) :: rest => if k' = k then some v else dictGet k rest

/-- Python dict assignment `d[k] = v`: update in place, else append. -/
def dictSet {α : Type} (k : String) (v : α) : List (String × α) → List (String × α)
  | [] => [(k, v)]
  | (k', v') :: rest => if k' = k then (k, v) :: rest else (k', v') :: dictSet k v rest

/-- Python dict deletion (`pop` / file removal keyed by id). -/
def dictErase {α : Type} (k : String) (l : List (String × α)) : List (String × α) :=
  l.filter (fun kv => kv.1 != k)

/-- Python `d.update(other)`: assign each item of `other` in order. -/
def dictUpdate {α : Type} (base : List (String × α)) (other : List (String × α)) :
    List (String × α) :=
  other.foldl (fun acc kv => dictSet kv.1 kv.2 acc) base

/-- jobs.py, class JobStatus. -/
def JobStatus.QUEUED : String := "queued"

def JobStatus.PROCESSING : String := "processing"

def JobStatus.COMPLETED : String := "completed"

def JobStatus.FAILED : String := "failed"

/-- jobs.py, dataclass JobArtifact (path as its string form). -/
structure JobArtifact where
  name : String
  path : String
  content_type : String
deriving DecidableEq

/-- jobs.py, dataclass JobRecord. -/
structure JobRecord where
  id : String
  filename : String
  created_at : Int
  updated_at : Int
  status : String := JobStatus.QUEUED
  message : Option String := none
  progress : Rat := 0
  eta_seconds : Option Rat := none
  duration_seconds : Option Rat := none
  language : Option String := none
  device : String := "auto"
  model : String := "medium"
  vad : Bool := true
  beam_size : Int := 5
  artifacts : List (String × JobArtifact) := []
  metadata : List (String × MVal) := []
  summaries : List (String × List (String × MVal)) := []
deriving DecidableEq

/-- The JSON payload written by `JobStore._save_manifest` (jobs.py lines
90–115), field for field.  Timestamps are stored via `isoformat`, which the
model keeps as the underlying integer. -/
structure Manifest where
  id : String
  filename : String
  status : String
  message : Option String
  progress : Rat
  eta_seconds : Option Rat
  created_at : Int
  updated_at : Int
  duration_seconds : Option Rat
  language : Option String
  device : String
  model : String
  vad : Bool
  beam_size : Int
  artifacts : List (String × JobArtifact)
  metadata : List (String × MVal)
  summaries : List (String × List (String × MVal))
deriving DecidableEq

/-- jobs.py `_save_manifest`: the payload dict built from a record (the
artifact path is serialised with `str(...)`, already a string here). -/
def save_manifest_payload (j : JobRecord) : Manifest :=
  { id := j.id
    filename := j.filename
    status := j.status
    message := j.message
    progress := j.progress
    eta_seconds := j.eta_seconds
    created_at := j.created_at
    updated_at := j.updated_at
    duration_seconds := j.duration_seconds
    language := j.language
    device := j.device
    model := j.model
    vad := j.vad
    beam_size := j.beam_size
    artifacts := j.artifacts
    metadata := j.metadata
    summaries := j.summaries }

/-- jobs.py `_record_from_manifest` (lines 130–167).  `pathExists` is the
filesystem predicate `Path(...).exists()`.  Python truthiness in
`float(data.get("progress", 0.0) or 0.0)` and
`int(data.get("beam_size", 5) or 5)` is embedded as a zero test; the
artifact, metadata and summary loops assign key by key into the fresh
record's dicts. -/
def record_from_manifest (pathExists : String → Bool) (m : Manifest) : JobRecord :=
  { id := m.id
    filename := m.filename
    created_at := m.created_at
    updated_at := m.updated_at
    status := m.status
    message := m.message
    progress := if m.progress = 0 then 0 else m.progress
    eta_seconds := m.eta_seconds
    duration_seconds := m.duration_seconds
    language := m.language
    device := m.device
    model := m.model
    vad := m.vad
    beam_size := if m.beam_size = 0 then 5 else m.beam_size
    artifacts :=
      m.artifacts.foldl
        (fun acc kv =>
          if pathExists kv.2.path then
            dictSet kv.1 { name := kv.2.name, path := kv.2.path, content_type := kv.2.content_type } acc
          else acc)
        []
    metadata := dictUpdate [] m.metadata
    summaries := m.summaries.foldl (fun acc kv => dictSet kv.1 kv.2 acc) [] }

/-- jobs.py `JobStore`: the in-memory index plus the on-disk per-job
directories (each holding the job's manifest). -/
structure JobStore where
  jobs : List (String × JobRecord)
  disk : List (String × Manifest)
deriving DecidableEq

/-- jobs.py `_touch` + `_save_manifest`: the in-place mutation of the record
held at key `job_id`, followed by writing its manifest to the directory
named by `job.id` (`_manifest_path(job.id)`). -/
def JobStore.commit (st : JobStore) (job_id : String) (j : JobRecord) : JobStore :=
  { jobs := dictSet job_id j st.jobs
    disk := dictSet j.id (save_manifest_payload j) st.disk }

/-- jobs.py `JobStore.create` (lines 185–212).  `job_id` stands for the
fresh uuid, `now` for `datetime.utcnow()`, and `saveOk` for whether the
manifest write succeeds; on failure the exception escapes `create` after
the in-memory index was already updated. -/
def JobStore.create (st : JobStore) (job_id : String) (now : Int)
    (filename model device : String) (vad : Bool) (beam_size : Int)
    (language : Option String) (saveOk : Bool) : JobStore × Except Unit JobRecord :=
  let record : JobRecord :=
    { id := job_id
      filename := filename
      created_at := now
      updated_at := now
      status := JobStatus.QUEUED
      language := language
      device := device
      model := model
      vad := vad
      beam_size := beam_size }
  if saveOk then
    ({ jobs := dictSet job_id record st.jobs
       disk := dictSet job_id (save_manifest_payload record) st.disk }, Except.ok record)
  else
    ({ st with jobs := dictSet job_id record st.jobs }, Except.error ())

/-- jobs.py `JobStore.set_status` (lines 225–230): unconditional overwrite
of status and message, then `_touch`. -/
def JobStore.set_status (st : JobStore) (job_id status : String)
    (message : Option String) (now : Int) : Option JobStore :=
  match dictGet job_id st.jobs with
  | none => none
  | some j =>
    some (st.commit job_id { j with status := status, message := message, updated_at := now })

/-- jobs.py `JobStore.set_progress` (lines 232–237): store the clamped
percent and the (possibly omitted, hence none) ETA, then `_touch`. -/
def JobStore.set_progress (st : JobStore) (job_id : String) (progress : Rat)
    (eta_seconds : Option Rat) (now : Int) : Option JobStore :=
  match dictGet job_id st.jobs with
  | none => none
  | some j =>
    some (st.commit job_id
      { j with progress := max 0 (min progress 100), eta_seconds := eta_seconds, updated_at := now })

/-- jobs.py `JobStore.attach_artifact`. -/
def JobStore.attach_artifact (st : JobStore) (job_id key : String)
    (artifact : JobArtifact) (now : Int) : Option JobStore :=
  match dictGet job_id st.jobs with
  | none => none
  | some j =>
    some (st.commit job_id { j with artifacts := dictSet key artifact j.artifacts, updated_at := now })

/-- jobs.py `JobStore.mark_duration`. -/
def JobStore.mark_duration (st : JobStore) (job_id : String)
    (duration_seconds : Option Rat) (now : Int) : Option JobStore :=
  match dictGet job_id st.jobs with
  | none => none
  | some j =>
    some (st.commit job_id { j with duration_seconds := duration_seconds, updated_at := now })

/-- jobs.py `JobStore.add_metadata`: `job.metadata.update(metadata)`. -/
def JobStore.add_metadata (st : JobStore) (job_id : String)
    (metadata : List (String × MVal)) (now : Int) : Option JobStore :=
  match dictGet job_id st.jobs with
  | none => none
  | some j =>
    some (st.commit job_id { j with metadata := dictUpdate j.metadata metadata, updated_at := now })

/-- jobs.py `JobStore.store_summary`. -/
def JobStore.store_summary (st : JobStore) (job_id mode_key : String)
    (payload : List (String × MVal)) (now : Int) : Option JobStore :=
  match dictGet job_id st.jobs with
  | none => none
  | some j =>
    some (st.commit job_id { j with summaries := dictSet mode_key payload j.summaries, updated_at := now })

/-- jobs.py `JobStore._remove`: pop the index entry, unlink the manifest and
remove the whole per-job directory. -/
def JobStore.remove (st : JobStore) (job_id : String) : JobStore :=
  { jobs := dictErase job_id st.jobs, disk := dictErase job_id st.disk }

/-- jobs.py `JobStore.prune` (lines 269–292): collect the ids created before
`now - retention_days * 86400` (`now` is `time.time()`), then remove each. -/
def JobStore.prune (st : JobStore) (retention_days : Int) (now : Int) : JobStore :=
  let cutoff := now - retention_days * 86400
  let stale := (st.jobs.filter (fun kv => decide (kv.2.created_at < cutoff))).map Prod.fst
  stale.foldl (fun s i => s.remove i) st

/-- The sort key of `JobStore.list`: descending `created_at` as a total
preorder.  Python's `sorted(..., key=created_at, reverse=True)` is the
stable sort by this relation. -/
def jobDescLE (a b : JobRecord) : Prop := b.created_at ≤ a.created_at

instance : DecidableRel jobDescLE := fun a b =>
  inferInstanceAs (Decidable (b.created_at ≤ a.created_at))

instance : IsTotal JobRecord jobDescLE :=
  ⟨fun a b => le_total b.created_at a.created_at⟩

instance : IsTrans JobRecord jobDescLE :=
  ⟨fun _ _ _ h1 h2 => le_trans h2 h1⟩

/-- jobs.py `JobStore.list` (lines 220–222): the stable descending sort of
the index's values (dict value order = insertion order). -/
def JobStore.list (st : JobStore) : List JobRecord :=
  (st.jobs.map Prod.snd).insertionSort jobDescLE

/-! engine.py — ModelProvider.  A loaded `WhisperModel` is opaque; each
construction yields a fresh handle identity (`next_handle` counts loads).
Construction is modelled as succeeding on the selected device. -/

/-- engine.py `ModelProvider` instance state. -/
structure ProviderState where
  cache : Option Nat := none
  key : Option String := none
  actual_device : Option String := none
  cuda_checked : Bool := false
  cuda_available : Bool := false
  next_handle : Nat := 0
deriving DecidableEq

/-- engine.py `ModelProvider.has_cuda`: probe torch once (`torchCuda` is the
probe's outcome, false when torch is missing or raises), cache thereafter. -/
def ProviderState.has_cuda (p : ProviderState) (torchCuda : Bool) : Bool × ProviderState :=
  if !p.cuda_checked then
    (torchCuda, { p with cuda_available := torchCuda, cuda_checked := true })
  else
    (p.cuda_available, p)

/-- engine.py `ModelProvider._create` (lines 107–141): degrade `cuda` to
`cpu` when no accelerator is available, then construct the model (a fresh
handle) on the selected device. -/
def ProviderState.create_model (p : ProviderState) (torchCuda : Bool)
    (device : String) : Nat × String × ProviderState :=
  if device = "cuda" then
    let probe := p.has_cuda torchCuda
    let selected := if probe.1 then "cuda" else "cpu"
    (probe.2.next_handle, selected, { probe.2 with next_handle := probe.2.next_handle + 1 })
  else
    (p.next_handle, device, { p with next_handle := p.next_handle + 1 })

/-- engine.py `ModelProvider.dispose`. -/
def ProviderState.dispose (p : ProviderState) : ProviderState :=
  if p.cache = none then p
  else { p with cache := none, key := none, actual_device := none }

/-- Python `self._actual_device or device`: falls back on none or empty. -/
def orDevice (actual : Option String) (device : String) : String :=
  match actual with
  | none => device
  | some s => if s = "" then device else s

/-- engine.py `ModelProvider.get` (lines 143–149): single-slot cache keyed
by `name::device` (the requested device), replace on mismatch. -/
def ProviderState.get (p : ProviderState) (torchCuda : Bool)
    (name device : String) : Nat × String × ProviderState :=
  let key := name ++ "::" ++ device
  if p.key ≠ some key ∨ p.cache = none then
    let d := p.dispose
    let c := d.create_model torchCuda device
    let p' := { c.2.2 with cache := some c.1, key := some key, actual_device := some c.2.1 }
    (c.1, orDevice p'.actual_device device, p')
  else
    (p.cache.getD 0, orDevice p.actual_device device, p)

/-! engine.py — Transcriber.  The underlying speech model is an opaque
producer of an ordered, finite segment sequence. -/

/-- engine.py dataclass Segment. -/
structure Segment where
  start : Rat
  stop : Rat
  text : String
deriving DecidableEq

/-- One raw segment as yielded by `model.transcribe`'s iterator. -/
structure RawSeg where
  start : Rat
  stop : Rat
  text : String
deriving DecidableEq

/-- engine.py dataclass TranscriptionResult. -/
structure TranscriptionResult where
  text : String
  segments : List Segment
  elapsed : Rat
  device : String
  vad_applied : Bool
deriving DecidableEq

/-- The Segment built for each consumed raw segment (text stripped). -/
def mkSegment (s : RawSeg) : Segment :=
  { start := s.start, stop := s.stop, text := s.text.trim }

/-- engine.py `Transcriber.transcribe` segment loop (lines 287–295): consume
raw segments in order, checking the cancellation event before each one;
`cancel i` is whether the event is set at the i-th check.  On a set event
the loop breaks at once, keeping what was already consumed. -/
def segsLoop (cancel : Nat → Bool) : Nat → List RawSeg → List Segment
  | _, [] => []
  | i, s :: rest => if cancel i then [] else mkSegment s :: segsLoop cancel (i + 1) rest

/-- engine.py `Transcriber` instance state (provider plus VAD bookkeeping). -/
structure TranscriberState where
  provider : ProviderState
  vad_available : Bool
  missing_vad_assets : List String
  warned_vad_missing : Bool := false
  last_vad_applied : Bool := false
  attempted_vad_download : Bool := false
deriving DecidableEq

/-- engine.py `Transcriber.ensure_vad_assets` (lines 215–233): at most one
automatic fetch per process; `fetchDetect` is what
`_detect_vad_assets(autofetch=True)` returns (a failed or unavailable fetch
leaves availability false). -/
def TranscriberState.ensure_vad_assets (t : TranscriberState)
    (fetchDetect : Bool × List String) : TranscriberState :=
  if t.vad_available || t.attempted_vad_download then t
  else
    { t with
      attempted_vad_download := true
      vad_available := fetchDetect.1
      missing_vad_assets := fetchDetect.2
      warned_vad_missing := if fetchDetect.1 then false else t.warned_vad_missing }

/-- The environment of one `Transcriber.transcribe` call: the torch probe
outcome, what an automatic VAD fetch would yield, the raw segments the
model produces, the audio duration, the cancellation signal, the wall
clock, and the optional grammar corrector. -/
structure TranscribeEnv where
  torchCuda : Bool
  fetchDetect : Bool × List String
  rawSegs : List RawSeg
  duration : Rat
  cancel : Nat → Bool
  elapsed : Rat
  corrector : Option (String → String)

/-- engine.py `Transcriber.transcribe` (lines 247–330): resolve the model
handle, reconcile the requested filter with asset availability, consume
segments under cooperative cancellation, join and optionally correct the
text.  Progress callbacks touch no transcriber state and are modelled
separately at the runner. -/
def TranscriberState.transcribe (t : TranscriberState) (model_name device : String)
    (vad_filter : Bool) (env : TranscribeEnv) : TranscriberState × TranscriptionResult :=
  let g := t.provider.get env.torchCuda model_name device
  let actual_device := g.2.1
  let t1 := { t with provider := g.2.2 }
  let t2 := if vad_filter then t1.ensure_vad_assets env.fetchDetect else t1
  let apply_vad := vad_filter && t2.vad_available
  let t3 :=
    { t2 with
      last_vad_applied := apply_vad
      warned_vad_missing :=
        if vad_filter && !apply_vad then true else t2.warned_vad_missing }
  let segments := segsLoop env.cancel 0 env.rawSegs
  let joined := (String.intercalate "\n" (segments.map Segment.text)).trim
  let text :=
    match env.corrector with
    | none => joined
    | some f => f joined
  (t3,
   { text := text
     segments := segments
     elapsed := env.elapsed
     device := actual_device
     vad_applied := apply_vad })

/-! app.py — the background job runner `_run_transcription` (lines 265–339),
success path.  The intermediate progress callbacks only write progress /
eta / updated_at, which the final `set_progress(100, 0)` overwrites before
completion; they are elided here.  Exception branches instead set FAILED
and are outside this path. -/

/-- app.py `_run_transcription`, success path: PROCESSING → transcribe →
progress 100 → duration → metadata (with the VAD downgrade reason when the
requested filter was not applied) → three artifacts → COMPLETED.  `clock n`
is the n-th `utcnow` reading taken by the store mutators. -/
def run_transcription_success (st : JobStore) (t : TranscriberState) (job_id : String)
    (opt_model opt_device : String) (opt_vad : Bool) (env : TranscribeEnv)
    (clock : Nat → Int) : Option (JobStore × TranscriberState × TranscriptionResult) :=
  match st.set_status job_id JobStatus.PROCESSING (some "Procesando") (clock 0) with
  | none => none
  | some st1 =>
    let r := t.transcribe opt_model opt_device opt_vad env
    let t' := r.1
    let result := r.2
    match st1.set_progress job_id 100 (some 0) (clock 1) with
    | none => none
    | some st2 =>
      let duration :=
        match result.segments.getLast? with
        | none => none
        | some s => some s.stop
      match st2.mark_duration job_id duration (clock 2) with
      | none => none
      | some st3 =>
        let metadata :=
          [("elapsed_seconds", MVal.n result.elapsed),
           ("actual_device", MVal.s result.device),
           ("vad_applied", MVal.b result.vad_applied)] ++
          (if opt_vad && !result.vad_applied then
            [("vad_reason", MVal.s "missing_vad_assets"),
             ("missing_vad_assets", MVal.list t'.missing_vad_assets)]
          else [])
        match st3.add_metadata job_id metadata (clock 3) with
        | none => none
        | some st4 =>
          let dir := job_id ++ "/"
          match st4.attach_artifact job_id "transcript"
              { name := "Transcripción", path := dir ++ "transcripcion.txt",
                content_type := "text/plain" } (clock 4) with
          | none => none
          | some st5 =>
            match st5.attach_artifact job_id "captions"
                { name := "Subtítulos", path := dir ++ "subtitulos.srt",
                  content_type := "application/x-subrip" } (clock 5) with
            | none => none
            | some st6 =>
              match st6.attach_artifact job_id "segments"
                  { name := "Segmentos", path := dir ++ "segmentos.json",
                    content_type := "application/json" } (clock 6) with
              | none => none
              | some st7 =>
                match st7.set_status job_id JobStatus.COMPLETED
                    (some "Transcripción lista") (clock 7) with
                | none => none
                | some st8 => some (st8, t', result)

/-! Basic dictionary lemmas shared by several developments. -/

theorem dictGet_dictSet {α : Type} (k id : String) (v : α) (l : List (String × α)) :
    dictGet id (dictSet k v l) = if k = id then some v else dictGet id l := by
  induction l with
  | nil => simp [dictGet, dictSet]
  | cons kv rest ih =>
    obtain ⟨k', v'⟩ := kv
    by_cases h1 : k' = k
    · subst h1
      by_cases h2 : k' = id
      · subst h2; simp [dictSet, dictGet]
      · simp [dictSet, dictGet, h2]
    · by_cases h2 : k' = id
      · subst h2
        have hk : ¬ k = k' := fun h => h1 h.symm
        simp [dictSet, dictGet, h1, hk]
      · simp [dictSet, dictGet, h1, h2, ih]

theorem dictGet_dictSet_self {α : Type} (k : String) (v : α) (l : List (String × α)) :
    dictGet k (dictSet k v l) = some v := by
  simp [dictGet_dictSet]

theorem dictGet_dictSet_ne {α : Type} {k id : String} (h : k ≠ id) (v : α)
    (l : List (String × α)) : dictGet id (dictSet k v l) = dictGet id l := by
  simp [dictGet_dictSet, h]

theorem dictGet_commit_self (st : JobStore) (job_id : String) (j : JobRecord) :
    dictGet job_id (st.commit job_id j).jobs = some j := by
  simp [JobStore.commit, dictGet_dictSet_self]

theorem dictGet_commit_ne (st : JobStore) {job_id id : String} (h : job_id ≠ id)
    (j : JobRecord) : dictGet id (st.commit job_id j).jobs = dictGet id st.jobs := by
  simp [JobStore.commit, dictGet_dictSet_ne h]

/-! The JobStore operation language of the claims: the six mutators, applied
in sequence (KeyError on an absent id aborts the sequence). -/

/-- One JobStore mutator invocation. -/
inductive Op where
  | opSetStatus (id status : String) (message : Option String) (now : Int)
  | opSetProgress (id : String) (p : Rat) (eta : Option Rat) (now : Int)
  | opAttachArtifact (id key : String) (a : JobArtifact) (now : Int)
  | opMarkDuration (id : String) (d : Option Rat) (now : Int)
  | opAddMetadata (id : String) (kvs : List (String × MVal)) (now : Int)
  | opStoreSummary (id key : String) (payload : List (String × MVal)) (now : Int)

/-- Whether an operation is a `set_status` call. -/
def Op.isSetStatus : Op → Bool
  | .opSetStatus .. => true
  | _ => false

/-- Apply one mutator to the store. -/
def stepOp (st : JobStore) : Op → Option JobStore
  | .opSetStatus id s m n => st.set_status id s m n
  | .opSetProgress id p eta n => st.set_progress id p eta n
  | .opAttachArtifact id key a n => st.attach_artifact id key a n
  | .opMarkDuration id d n => st.mark_duration id d n
  | .opAddMetadata id kvs n => st.add_metadata id kvs n
  | .opStoreSummary id key payload n => st.store_summary id key payload n

/-- Apply a sequence of mutators. -/
def runOps (st : JobStore) : List Op → Option JobStore
  | [] => some st
  | op :: rest =>
    match stepOp st op with
    | none => none
    | some st' => runOps st' rest

/-- Every mutator of the `lookup, mutate field, commit` shape preserves the
status of every record when the mutation preserves it. -/
theorem status_preserved_mutator (st : JobStore) (oid : String) (f : JobRecord → JobRecord)
    (hf : ∀ j, (f j).status = j.status) (st' : JobStore)
    (h : (match dictGet oid st.jobs with
          | none => none
          | some j => some (st.commit oid (f j))) = some st')
    (id : String) (r : JobRecord) (hr : dictGet id st.jobs = some r) :
    ∃ r', dictGet id st'.jobs = some r' ∧ r'.status = r.status := by
  cases hj : dictGet oid st.jobs with
  | none => rw [hj] at h; exact absurd h (by simp)
  | some j =>
    rw [hj] at h
    simp only [Option.some.injEq] at h
    subst h
    by_cases hid : oid = id
    · subst hid
      rw [hj] at hr
      injection hr with hjr
      subst hjr
      exact ⟨f j, dictGet_commit_self st oid (f j), hf j⟩
    · exact ⟨r, (dictGet_commit_ne st hid (f j)).trans hr, rfl⟩

theorem status_preserved_step (op : Op) (hop : op.isSetStatus = false)
    (st st' : JobStore) (h : stepOp st op = some st') (id : String) (r : JobRecord)
    (hr : dictGet id st.jobs = some r) :
    ∃ r', dictGet id st'.jobs = some r' ∧ r'.status = r.status := by
  cases op with
  | opSetStatus _ _ _ _ => simp [Op.isSetStatus] at hop
  | opSetProgress oid p eta n =>
    simp only [stepOp, JobStore.set_progress] at h
    exact status_preserved_mutator st oid
      (fun j => { j with progress := max 0 (min p 100), eta_seconds := eta, updated_at := n })
      (fun _ => rfl) st' h id r hr
  | opAttachArtifact oid key a n =>
    simp only [stepOp, JobStore.attach_artifact] at h
    exact status_preserved_mutator st oid
      (fun j => { j with artifacts := dictSet key a j.artifacts, updated_at := n })
      (fun _ => rfl) st' h id r hr
  | opMarkDuration oid d n =>
    simp only [stepOp, JobStore.mark_duration] at h
    exact status_preserved_mutator st oid
      (fun j => { j with duration_seconds := d, updated_at := n })
      (fun _ => rfl) st' h id r hr
  | opAddMetadata oid kvs n =>
    simp only [stepOp, JobStore.add_metadata] at h
    exact status_preserved_mutator st oid
      (fun j => { j with metadata := dictUpdate j.metadata kvs, updated_at := n })
      (fun _ => rfl) st' h id r hr
  | opStoreSummary oid key payload n =>
    simp only [stepOp, JobStore.store_summary] at h
    exact status_preserved_mutator st oid
      (fun j => { j with summaries := dictSet key payload j.summaries, updated_at := n })
      (fun _ => rfl) st' h id r hr

theorem status_preserved_run (ops : List Op) (hops : ∀ op ∈ ops, op.isSetStatus = false) :
    ∀ st st', runOps st ops = some st' → ∀ id r, dictGet id st.jobs = some r →
      ∃ r', dictGet id st'.jobs = some r' ∧ r'.status = r.status := by
  induction ops with
  | nil =>
    intro st st' h id r hr
    simp only [runOps, Option.some.injEq] at h
    exact ⟨r, h ▸ hr, rfl⟩
  | cons op rest ih =>
    intro st st' h id r hr
    simp only [runOps] at h
    cases hs : stepOp st op with
    | none => rw [hs] at h; exact absurd h (by simp)
    | some st1 =>
      rw [hs] at h
      obtain ⟨r1, hr1, hstat1⟩ :=
        status_preserved_step op (hops op (by simp)) st st1 hs id r hr
      obtain ⟨r', hr', hstat'⟩ :=
        ih (fun o ho => hops o (by simp [ho])) st1 st' h id r1 hr1
      exact ⟨r', hr', hstat'.trans hstat1⟩

/-! Shared concrete sample data for counterexamples and witnesses. -/

/-- A concrete job record. -/
def sampleJob (id : String) (created : Int) (status : String) (progress : Rat) : JobRecord :=
  { id := id
    filename := id ++ ".wav"
    created_at := created
    updated_at := created
    status := status
    progress := progress }

/-- A concrete store whose index and disk hold the given records. -/
def sampleStore (recs : List JobRecord) : JobStore :=
  { jobs := recs.map (fun r => (r.id, r))
    disk := recs.map (fun r => (r.id, save_manifest_payload r)) }

/-- The store of one COMPLETED job `j1`. -/
def storeOneCompleted : JobStore :=
  sampleStore [sampleJob "j1" 0 JobStatus.COMPLETED 100]

/-- C1 counterexample: on a store holding a COMPLETED job, the JobStore
operation `set_status(j1, QUEUED)` succeeds and moves the record back to
QUEUED — the store never guards terminal statuses. -/
theorem c1_counterexample :
    (dictGet "j1" storeOneCompleted.jobs).map JobRecord.status =
      some JobStatus.COMPLETED ∧
    (storeOneCompleted.set_status "j1" JobStatus.QUEUED none 5).map
        (fun st => (dictGet "j1" st.jobs).map JobRecord.status) =
      some (some JobStatus.QUEUED) ∧
    JobStatus.QUEUED ≠ JobStatus.COMPLETED := by
  exact ⟨rfl, rfl, by decide⟩

/-- C1 (amended): once a record's status is COMPLETED or FAILED, no sequence
of the JobStore mutators other than `set_status` (set_progress,
attach_artifact, mark_duration, add_metadata, store_summary) ever changes
it; `set_status` itself overwrites the status unconditionally, so the store
does not enforce terminality against it. -/
theorem c1_terminal_stable_without_set_status (ops : List Op)
    (hops : ∀ op ∈ ops, op.isSetStatus = false) (st st' : JobStore)
    (h : runOps st ops = some st') (id : String) (r : JobRecord)
    (hr : dictGet id st.jobs = some r)
    (hterm : r.status = JobStatus.COMPLETED ∨ r.status = JobStatus.FAILED) :
    ∃ r', dictGet id st'.jobs = some r' ∧ r'.status = r.status :=
  status_preserved_run ops hops st st' h id r hr

/-- The C1 witness target state: the sample store after one set_progress. -/
def storeOneCompletedAfterProgress : JobStore :=
  storeOneCompleted.commit "j1"
    { sampleJob "j1" 0 JobStatus.COMPLETED 100 with
      progress := 50, eta_seconds := none, updated_at := 1 }

theorem c1_terminal_stable_witness :
    ∃ r', dictGet "j1" storeOneCompletedAfterProgress.jobs = some r' ∧
      r'.status = (sampleJob "j1" 0 JobStatus.COMPLETED 100).status := by
  exact c1_terminal_stable_without_set_status
    [Op.opSetProgress "j1" 50 none 1] (by decide)
    storeOneCompleted storeOneCompletedAfterProgress (by decide) "j1"
    (sampleJob "j1" 0 JobStatus.COMPLETED 100) (by decide) (Or.inl rfl)

/-- C10: for a present id, `set_progress(id, p, eta)` rewrites exactly the
record's progress (clamped to [0,100]), eta_seconds (to the argument, hence
to absent when the Python call omits it, its default being None) and
updated_at, and leaves every other field of the record and every other
record unchanged. -/
theorem c10_set_progress_frame (st : JobStore) (id : String) (p : Rat)
    (eta : Option Rat) (now : Int) (r : JobRecord) (hr : dictGet id st.jobs = some r) :
    ∃ st', st.set_progress id p eta now = some st' ∧
      dictGet id st'.jobs =
        some { r with progress := max 0 (min p 100), eta_seconds := eta, updated_at := now } ∧
      (∀ k, k ≠ id → dictGet k st'.jobs = dictGet k st.jobs) := by
  refine ⟨st.commit id
    { r with progress := max 0 (min p 100), eta_seconds := eta, updated_at := now },
    ?_, ?_, ?_⟩
  · simp [JobStore.set_progress, hr]
  · exact dictGet_commit_self st id _
  · intro k hk
    exact dictGet_commit_ne st (fun h => hk h.symm) _

theorem c10_set_progress_frame_witness :
    ∃ st', storeOneCompleted.set_progress "j1" 42 none 9 = some st' ∧
      dictGet "j1" st'.jobs =
        some { sampleJob "j1" 0 JobStatus.COMPLETED 100 with
               progress := max 0 (min 42 100), eta_seconds := none, updated_at := 9 } ∧
      (∀ k, k ≠ "j1" → dictGet k st'.jobs = dictGet k storeOneCompleted.jobs) :=
  c10_set_progress_frame storeOneCompleted "j1" 42 none 9
    (sampleJob "j1" 0 JobStatus.COMPLETED 100) (by decide)

/-- The store of one PROCESSING job `p1` at progress 50. -/
def storeHalfProgress : JobStore :=
  sampleStore [sampleJob "p1" 0 JobStatus.PROCESSING 50]

/-- C3 counterexample: with the stored progress at 50, the JobStore call
`set_progress(p1, 10)` lowers the stored value to 10 — the store applies no
monotonicity guard. -/
theorem c3_counterexample :
    (dictGet "p1" storeHalfProgress.jobs).map JobRecord.progress = some 50 ∧
    (storeHalfProgress.set_progress "p1" 10 none 3).map
        (fun st => (dictGet "p1" st.jobs).map JobRecord.progress) = some (some 10) ∧
    (10 : Rat) < 50 := by
  decide

/-- C3 (amended): `set_progress(id, p)` stores exactly `clamp(p, 0, 100)`,
independent of the previously stored value; hence a call with a percent
lower than the current stored progress does lower the stored value, and the
recorded sequence is non-decreasing only when successive clamped percents
are (as those the Transcriber reports from non-decreasing segment end
times). -/
theorem c3_set_progress_overwrites (st : JobStore) (id : String) (p : Rat)
    (eta : Option Rat) (now : Int) (r : JobRecord) (hr : dictGet id st.jobs = some r) :
    ((st.set_progress id p eta now).bind (fun s => dictGet id s.jobs)).map
        JobRecord.progress = some (max 0 (min p 100)) := by
  simp [JobStore.set_progress, hr, dictGet_commit_self]

theorem c3_set_progress_overwrites_witness :
    ((storeHalfProgress.set_progress "p1" 10 none 3).bind
        (fun s => dictGet "p1" s.jobs)).map JobRecord.progress =
      some (max 0 (min 10 100)) :=
  c3_set_progress_overwrites storeHalfProgress "p1" 10 none 3
    (sampleJob "p1" 0 JobStatus.PROCESSING 50) (by decide)

/-- C7 counterexample: when the manifest write fails, `create` does not
return normally — the exception escapes to the caller (the model's
`Except.error`), refuting that a persistence failure is never propagated
out of `create`. -/
theorem c7_counterexample :
    (JobStore.create (sampleStore []) "n1" 0 "a.wav" "medium" "auto" true 5 none
        false).2 = Except.error () := by
  rfl

/-- C7 (amended): if persisting the manifest fails, the new record is
nevertheless present in the in-memory index with its QUEUED initial state
and the disk is untouched, but `create` propagates the failure to its
caller instead of returning normally. -/
theorem c7_create_partial_failure (st : JobStore) (job_id : String) (now : Int)
    (filename model device : String) (vad : Bool) (beam_size : Int)
    (language : Option String) :
    dictGet job_id
        (st.create job_id now filename model device vad beam_size language false).1.jobs =
      some { id := job_id, filename := filename, created_at := now, updated_at := now,
             status := JobStatus.QUEUED, language := language, device := device,
             model := model, vad := vad, beam_size := beam_size } ∧
    (st.create job_id now filename model device vad beam_size language false).2 =
      Except.error () ∧
    (st.create job_id now filename model device vad beam_size language false).1.disk =
      st.disk := by
  refine ⟨?_, rfl, rfl⟩
  simp [JobStore.create, dictGet_dictSet_self]

/-- A freshly constructed ModelProvider (engine.py `__init__`). -/
def provFresh : ProviderState := {}

/-- C4 counterexample: with no accelerator, `get("medium","cuda")` resolves
to actual device "cpu", but the immediately following `get("medium","cpu")`
does NOT reuse the cached handle: the cache key is the requested device
string, so the provider disposes the cache and constructs a new model (the
handle identity changes and the load counter increments). -/
theorem c4_counterexample :
    (provFresh.get false "medium" "cuda").2.1 = "cpu" ∧
    ((provFresh.get false "medium" "cuda").2.2.get false "medium" "cpu").1 ≠
      (provFresh.get false "medium" "cuda").1 ∧
    ((provFresh.get false "medium" "cuda").2.2.get false "medium" "cpu").2.2.next_handle =
      (provFresh.get false "medium" "cuda").2.2.next_handle + 1 := by
  decide

/-- C4 (amended): with no accelerator and an empty cache,
`get("medium","cuda")` returns actual device "cpu"; a repeated
`get("medium","cuda")` (the same requested key) reuses the cached handle
with no new construction, while `get("medium","cpu")` misses the cache
(keyed on the requested, not the resolved, device) and constructs a new
model. -/
theorem c4_cache_key_is_requested_device (p : ProviderState)
    (hca : p.cuda_available = false) (hcache : p.cache = none) :
    (p.get false "medium" "cuda").2.1 = "cpu" ∧
    ((p.get false "medium" "cuda").2.2.get false "medium" "cuda").1 =
      (p.get false "medium" "cuda").1 ∧
    ((p.get false "medium" "cuda").2.2.get false "medium" "cuda").2.2 =
      (p.get false "medium" "cuda").2.2 ∧
    ((p.get false "medium" "cuda").2.2.get false "medium" "cpu").1 ≠
      (p.get false "medium" "cuda").1 ∧
    ((p.get false "medium" "cuda").2.2.get false "medium" "cpu").2.2.next_handle =
      (p.get false "medium" "cuda").2.2.next_handle + 1 := by
  have hd : p.dispose = p := by simp [ProviderState.dispose, hcache]
  by_cases hchk : p.cuda_checked = true
  · simp [ProviderState.get, ProviderState.create_model, ProviderState.has_cuda,
      ProviderState.dispose, orDevice, hca, hcache, hchk]
  · simp only [Bool.not_eq_true] at hchk
    simp [ProviderState.get, ProviderState.create_model, ProviderState.has_cuda,
      ProviderState.dispose, orDevice, hca, hcache, hchk]

theorem c4_cache_key_witness :
    (provFresh.get false "medium" "cuda").2.1 = "cpu" ∧
    ((provFresh.get false "medium" "cuda").2.2.get false "medium" "cuda").1 =
      (provFresh.get false "medium" "cuda").1 ∧
    ((provFresh.get false "medium" "cuda").2.2.get false "medium" "cuda").2.2 =
      (provFresh.get false "medium" "cuda").2.2 ∧
    ((provFresh.get false "medium" "cuda").2.2.get false "medium" "cpu").1 ≠
      (provFresh.get false "medium" "cuda").1 ∧
    ((provFresh.get false "medium" "cuda").2.2.get false "medium" "cpu").2.2.next_handle =
      (provFresh.get false "medium" "cuda").2.2.next_handle + 1 :=
  c4_cache_key_is_requested_device provFresh rfl rfl

/-! Fold lemmas for rebuilding dicts key by key (manifest reconstruction). -/

theorem dictSet_append_of_fresh {α : Type} {k : String} {acc : List (String × α)}
    (h : dictGet k acc = none) (v : α) : dictSet k v acc = acc ++ [(k, v)] := by
  induction acc with
  | nil => rfl
  | cons kv rest ih =>
    simp only [dictGet] at h
    by_cases h1 : kv.1 = k
    · rw [if_pos h1] at h; cases h
    · rw [if_neg h1] at h
      simp [dictSet, h1, ih h]

theorem dictGet_append_of_none {α : Type} {k : String} {a : List (String × α)}
    (h : dictGet k a = none) (b : List (String × α)) :
    dictGet k (a ++ b) = dictGet k b := by
  induction a with
  | nil => rfl
  | cons kv rest ih =>
    simp only [dictGet] at h
    by_cases h1 : kv.1 = k
    · rw [if_pos h1] at h; cases h
    · rw [if_neg h1] at h
      simp [dictGet, h1, ih h]

/-- Assigning a list of fresh, pairwise-distinct keys into a dict appends
them in order. -/
theorem foldl_dictSet_of_fresh {α : Type} (l : List (String × α)) :
    ∀ acc : List (String × α), (l.map Prod.fst).Nodup →
      (∀ kv ∈ l, dictGet kv.1 acc = none) →
      l.foldl (fun a kv => dictSet kv.1 kv.2 a) acc = acc ++ l := by
  induction l with
  | nil => intro acc _ _; simp
  | cons kv rest ih =>
    intro acc hnd hfresh
    simp only [List.foldl_cons]
    rw [dictSet_append_of_fresh (hfresh kv (by simp)) kv.2]
    simp only [List.map_cons, List.nodup_cons] at hnd
    have hfresh' : ∀ kv' ∈ rest, dictGet kv'.1 (acc ++ [(kv.1, kv.2)]) = none := by
      intro kv' hkv'
      have hne : kv.1 ≠ kv'.1 := by
        intro he
        exact hnd.1 (by rw [he]; exact List.mem_map_of_mem Prod.fst hkv')
      rw [dictGet_append_of_none (hfresh kv' (List.mem_cons_of_mem kv hkv'))]
      simp [dictGet, hne]
    rw [ih (acc ++ [(kv.1, kv.2)]) hnd.2 hfresh']
    simp

/-- A fold whose body skips elements failing `p` equals the fold over the
filtered list. -/
theorem foldl_if_filter {α β : Type} (p : α → Bool) (g : β → α → β) (l : List α) :
    ∀ acc : β, l.foldl (fun a x => if p x then g a x else a) acc =
      (l.filter p).foldl g acc := by
  induction l with
  | nil => intro acc; rfl
  | cons x rest ih =>
    intro acc
    by_cases hp : p x <;> simp [List.filter_cons, hp, ih]

theorem dictUpdate_nil {α : Type} (l : List (String × α))
    (h : (l.map Prod.fst).Nodup) : dictUpdate [] l = l := by
  have := foldl_dictSet_of_fresh l [] h (fun kv _ => rfl)
  simpa [dictUpdate] using this

/-- A record whose beam width is 0 (Python `int(0 or 5)` restores 5). -/
def beamZeroJob : JobRecord :=
  { id := "b0", filename := "b.wav", created_at := 0, updated_at := 0, beam_size := 0 }

/-- C2 counterexample: a record with beam_size 0 and no artifacts at all
(so the claim predicts an identical reconstruction) does not round-trip:
`int(data.get("beam_size", 5) or 5)` turns the stored 0 into 5. -/
theorem c2_counterexample :
    record_from_manifest (fun _ => true) (save_manifest_payload beamZeroJob) ≠
      beamZeroJob ∧
    beamZeroJob.artifacts = [] ∧
    (record_from_manifest (fun _ => true) (save_manifest_payload beamZeroJob)).beam_size =
      5 := by
  decide

/-- C2 (amended): for every record whose beam width is non-zero (and whose
dict keys are, as Python dicts guarantee, pairwise distinct), serialising
to the manifest payload and reconstructing yields a record equal in all
fields, except that artifact entries whose filesystem path no longer
exists are dropped.  A record with beam_size 0 is the one further
exception: reconstruction restores the default 5. -/
theorem c2_roundtrip (pathExists : String → Bool) (j : JobRecord)
    (hb : j.beam_size ≠ 0)
    (hart : (j.artifacts.map Prod.fst).Nodup)
    (hmeta : (j.metadata.map Prod.fst).Nodup)
    (hsum : (j.summaries.map Prod.fst).Nodup) :
    record_from_manifest pathExists (save_manifest_payload j) =
      { j with artifacts := j.artifacts.filter (fun kv => pathExists kv.2.path) } := by
  have hprog : (if j.progress = 0 then (0 : Rat) else j.progress) = j.progress := by
    by_cases h : j.progress = 0
    · rw [if_pos h, h]
    · rw [if_neg h]
  have hbeam : (if j.beam_size = 0 then (5 : Int) else j.beam_size) = j.beam_size :=
    if_neg hb
  have hartnd :
      ((j.artifacts.filter (fun kv => pathExists kv.2.path)).map Prod.fst).Nodup :=
    ((List.filter_sublist j.artifacts).map Prod.fst).nodup hart
  have hartifacts :
      j.artifacts.foldl
        (fun acc kv =>
          if pathExists kv.2.path then
            dictSet kv.1
              { name := kv.2.name, path := kv.2.path, content_type := kv.2.content_type } acc
          else acc) [] =
      j.artifacts.filter (fun kv => pathExists kv.2.path) := by
    have he :
        (fun (acc : List (String × JobArtifact)) (kv : String × JobArtifact) =>
          if pathExists kv.2.path then
            dictSet kv.1
              { name := kv.2.name, path := kv.2.path, content_type := kv.2.content_type } acc
          else acc) =
        (fun acc kv => if pathExists kv.2.path then dictSet kv.1 kv.2 acc else acc) := rfl
    rw [he]
    have h1 := foldl_if_filter (fun kv : String × JobArtifact => pathExists kv.2.path)
      (fun acc kv => dictSet kv.1 kv.2 acc) j.artifacts []
    have h2 := foldl_dictSet_of_fresh
      (j.artifacts.filter (fun kv => pathExists kv.2.path)) [] hartnd (fun kv _ => rfl)
    simpa using h1.trans h2
  have hmeta' : dictUpdate [] j.metadata = j.metadata := dictUpdate_nil _ hmeta
  have hsum' : j.summaries.foldl (fun acc kv => dictSet kv.1 kv.2 acc) [] = j.summaries :=
    foldl_dictSet_of_fresh _ [] hsum (fun kv _ => rfl)
  simp [record_from_manifest, save_manifest_payload, hprog, hbeam, hartifacts,
    hmeta', hsum']

/-- A fully populated record, one artifact path of which has disappeared. -/
def roundJob : JobRecord :=
  { id := "r1", filename := "r.wav", created_at := 10, updated_at := 11,
    status := JobStatus.COMPLETED, message := some "ok", progress := 75,
    eta_seconds := some 2, duration_seconds := some 9, language := some "es",
    device := "cpu", model := "medium", vad := false, beam_size := 3,
    artifacts :=
      [("transcript", { name := "T", path := "keep.txt", content_type := "text/plain" }),
       ("captions", { name := "C", path := "gone.srt", content_type := "application/x-subrip" })],
    metadata := [("requested_device", MVal.s "cuda"), ("vad_applied", MVal.b false)],
    summaries := [("short", [("text", MVal.s "resumen")])] }

theorem c2_roundtrip_witness :
    record_from_manifest (fun s => s != "gone.srt") (save_manifest_payload roundJob) =
      { roundJob with
        artifacts := roundJob.artifacts.filter (fun kv => kv.2.path != "gone.srt") } :=
  c2_roundtrip (fun s => s != "gone.srt") roundJob (by decide) (by decide) (by decide)
    (by decide)

/-! Lemmas for prune: removing a list of ids is filtering them out. -/

theorem dictGet_eq_none_iff {α : Type} (k : String) (l : List (String × α)) :
    dictGet k l = none ↔ k ∉ l.map Prod.fst := by
  induction l with
  | nil => simp [dictGet]
  | cons kv rest ih =>
    simp only [dictGet, List.map_cons, List.mem_cons]
    by_cases h1 : kv.1 = k
    · simp [h1]
    · have h2 : ¬ k = kv.1 := fun h => h1 h.symm
      simp [h1, h2, ih]

theorem foldl_remove_eq_filter (ids : List String) :
    ∀ st : JobStore, ids.foldl (fun s i => s.remove i) st =
      { jobs := st.jobs.filter (fun kv => decide (kv.1 ∉ ids)),
        disk := st.disk.filter (fun kv => decide (kv.1 ∉ ids)) } := by
  induction ids with
  | nil => intro st; simp
  | cons i rest ih =>
    intro st
    simp only [List.foldl_cons]
    rw [ih]
    simp only [JobStore.remove, dictErase, List.filter_filter]
    have hp : ∀ x : String, (decide (x ∉ rest) && (x != i)) = decide (x ∉ i :: rest) := by
      intro x
      by_cases h1 : x = i <;> by_cases h2 : x ∈ rest <;> simp [h1, h2]
    have h1 : List.filter (fun a : String × JobRecord => decide (a.1 ∉ rest) && a.1 != i)
        st.jobs = List.filter (fun kv => decide (kv.1 ∉ i :: rest)) st.jobs :=
      List.filter_congr (fun x _ => hp x.1)
    have h2 : List.filter (fun a : String × Manifest => decide (a.1 ∉ rest) && a.1 != i)
        st.disk = List.filter (fun kv => decide (kv.1 ∉ i :: rest)) st.disk :=
      List.filter_congr (fun x _ => hp x.1)
    rw [h1, h2]

/-- Entries of a dict with pairwise-distinct keys are determined by key. -/
theorem entry_eq_of_nodup_keys {α : Type} {l : List (String × α)}
    (h : (l.map Prod.fst).Nodup) {a b : String × α}
    (ha : a ∈ l) (hb : b ∈ l) (hk : a.1 = b.1) : a = b := by
  induction l with
  | nil => cases ha
  | cons kv rest ih =>
    simp only [List.map_cons, List.nodup_cons] at h
    rcases List.mem_cons.mp ha with ha1 | ha2 <;>
      rcases List.mem_cons.mp hb with hb1 | hb2
    · rw [ha1, hb1]
    · exact absurd (by rw [← ha1, hk]; exact List.mem_map_of_mem Prod.fst hb2) h.1
    · exact absurd (by rw [← hb1, ← hk]; exact List.mem_map_of_mem Prod.fst ha2) h.1
    · exact ih h.2 ha2 hb2

/-- C5: after `prune(retention_days=D)` (with `now` the sweep's wall-clock
reading and the index well-keyed, as Python dicts are), no job created
strictly before `now - D·86400` remains in `list()`, every job created at
or after that cutoff remains, and each removed job's on-disk per-job
directory is gone. -/
theorem c5_prune_retention (st : JobStore) (d now : Int)
    (hnd : (st.jobs.map Prod.fst).Nodup) :
    (∀ r ∈ (st.prune d now).list, now - d * 86400 ≤ r.created_at) ∧
    (∀ kv ∈ st.jobs, now - d * 86400 ≤ kv.2.created_at →
      kv.2 ∈ (st.prune d now).list) ∧
    (∀ kv ∈ st.jobs, kv.2.created_at < now - d * 86400 →
      dictGet kv.1 (st.prune d now).disk = none) := by
  have hpe : st.prune d now =
      { jobs := st.jobs.filter (fun kv => decide (kv.1 ∉
          (st.jobs.filter (fun kv => decide (kv.2.created_at < now - d * 86400))).map
            Prod.fst)),
        disk := st.disk.filter (fun kv => decide (kv.1 ∉
          (st.jobs.filter (fun kv => decide (kv.2.created_at < now - d * 86400))).map
            Prod.fst)) } :=
    foldl_remove_eq_filter _ st
  refine ⟨?_, ?_, ?_⟩
  · intro r hr
    rw [hpe] at hr
    simp only [JobStore.list, List.mem_insertionSort] at hr
    obtain ⟨kv, hkv, hkvr⟩ := List.mem_map.mp hr
    have hkvf := List.mem_filter.mp hkv
    have hnot : kv.1 ∉ (st.jobs.filter
        (fun kv => decide (kv.2.created_at < now - d * 86400))).map Prod.fst :=
      of_decide_eq_true hkvf.2
    by_contra hlt
    push_neg at hlt
    exact hnot (List.mem_map_of_mem Prod.fst
      (List.mem_filter.mpr ⟨hkvf.1, decide_eq_true (by rw [hkvr]; exact hlt)⟩))
  · intro kv hkv hge
    rw [hpe]
    simp only [JobStore.list, List.mem_insertionSort]
    refine List.mem_map_of_mem Prod.snd (List.mem_filter.mpr ⟨hkv, decide_eq_true ?_⟩)
    intro hmem
    obtain ⟨kv', hkv', hkeq⟩ := List.mem_map.mp hmem
    have hkv'f := List.mem_filter.mp hkv'
    have hee : kv' = kv := entry_eq_of_nodup_keys hnd hkv'f.1 hkv hkeq
    have hlt := of_decide_eq_true hkv'f.2
    rw [hee] at hlt
    omega
  · intro kv hkv hlt
    rw [hpe]
    rw [dictGet_eq_none_iff]
    intro hmem
    obtain ⟨e, he, hekey⟩ := List.mem_map.mp hmem
    have hef := List.mem_filter.mp he
    have hnot : e.1 ∉ (st.jobs.filter
        (fun kv => decide (kv.2.created_at < now - d * 86400))).map Prod.fst :=
      of_decide_eq_true hef.2
    refine hnot ?_
    rw [hekey]
    exact List.mem_map_of_mem Prod.fst
      (List.mem_filter.mpr ⟨hkv, decide_eq_true hlt⟩)

/-- The old (10-day) and fresh (1-day) jobs of the retention scenario. -/
def storeRetention : JobStore :=
  sampleStore [sampleJob "old" 0 JobStatus.COMPLETED 100,
               sampleJob "new" 777600 JobStatus.COMPLETED 100]

theorem c5_prune_retention_witness :
    (∀ r ∈ (storeRetention.prune 7 864000).list,
      864000 - 7 * 86400 ≤ r.created_at) ∧
    (∀ kv ∈ storeRetention.jobs, 864000 - 7 * 86400 ≤ kv.2.created_at →
      kv.2 ∈ (storeRetention.prune 7 864000).list) ∧
    (∀ kv ∈ storeRetention.jobs, kv.2.created_at < 864000 - 7 * 86400 →
      dictGet kv.1 (storeRetention.prune 7 864000).disk = none) :=
  c5_prune_retention storeRetention 7 864000 (by decide)

/-- Two jobs sharing a creation timestamp, ids "a" < "b". -/
def jobTieA : JobRecord := sampleJob "a" 100 JobStatus.QUEUED 0

def jobTieB : JobRecord := sampleJob "b" 100 JobStatus.QUEUED 0

/-- C8 counterexample: two stores holding the same two records (equal
created_at, distinct ids) in opposite insertion orders.  `list()` returns
them in insertion order in both, so its tie order is not a function of the
ids: no deterministic id tie-break exists. -/
theorem c8_counterexample :
    (sampleStore [jobTieA, jobTieB]).list = [jobTieA, jobTieB] ∧
    (sampleStore [jobTieB, jobTieA]).list = [jobTieB, jobTieA] ∧
    (sampleStore [jobTieA, jobTieB]).jobs.Perm (sampleStore [jobTieB, jobTieA]).jobs ∧
    jobTieA.created_at = jobTieB.created_at ∧
    jobTieA.id ≠ jobTieB.id := by
  refine ⟨by decide, by decide, ?_, by decide, by decide⟩
  exact List.Perm.swap _ _ _

/-- C8 (amended): `list()` returns all records (a permutation of the
index's values), ordered newest-created first; records with equal
created_at keep their relative insertion order (Python's sort is stable) —
there is no id-based tie-break. -/
theorem c8_list_newest_first_stable (st : JobStore) :
    (st.list).Perm (st.jobs.map Prod.snd) ∧
    st.list.Sorted jobDescLE ∧
    ∀ k : Int, st.list.filter (fun r => decide (r.created_at = k)) =
      (st.jobs.map Prod.snd).filter (fun r => decide (r.created_at = k)) := by
  refine ⟨List.perm_insertionSort jobDescLE _, List.sorted_insertionSort jobDescLE _, ?_⟩
  intro k
  have hpw : ((st.jobs.map Prod.snd).filter
      (fun r => decide (r.created_at = k))).Pairwise jobDescLE := by
    refine List.pairwise_of_forall_mem_list ?_
    intro a ha b hb
    have hak : a.created_at = k := of_decide_eq_true (List.mem_filter.mp ha).2
    have hbk : b.created_at = k := of_decide_eq_true (List.mem_filter.mp hb).2
    unfold jobDescLE
    omega
  have hsub : List.Sublist
      ((st.jobs.map Prod.snd).filter (fun r => decide (r.created_at = k))) st.list :=
    List.sublist_insertionSort hpw (List.filter_sublist _)
  have hsub2 : List.Sublist
      ((st.jobs.map Prod.snd).filter (fun r => decide (r.created_at = k)))
      (st.list.filter (fun r => decide (r.created_at = k))) := by
    have := hsub.filter (fun r => decide (r.created_at = k))
    simpa [List.filter_filter] using this
  have hlen : (st.list.filter (fun r => decide (r.created_at = k))).length =
      ((st.jobs.map Prod.snd).filter (fun r => decide (r.created_at = k))).length :=
    ((List.perm_insertionSort jobDescLE _).filter _).length_eq
  exact (hsub2.eq_of_length hlen.symm).symm

/-! Lemmas about the cancellation-checked segment loop. -/

/-- The canceled loop's output is the take of its own length from the
uncanceled loop's output. -/
theorem segsLoop_eq_take (cancel : Nat → Bool) :
    ∀ (raw : List RawSeg) (i : Nat),
      segsLoop cancel i raw =
        (segsLoop (fun _ => false) i raw).take (segsLoop cancel i raw).length := by
  intro raw
  induction raw with
  | nil => intro i; rfl
  | cons s rest ih =>
    intro i
    by_cases hc : cancel i
    · simp [segsLoop, hc]
    · simp only [segsLoop, hc, if_false, Bool.false_eq_true, List.length_cons,
        List.take_succ_cons, List.cons.injEq, true_and]
      exact ih (i + 1)

/-- Without cancellation the loop consumes every raw segment. -/
theorem segsLoop_full_length (raw : List RawSeg) :
    ∀ i, (segsLoop (fun _ => false) i raw).length = raw.length := by
  induction raw with
  | nil => intro i; rfl
  | cons s rest ih => intro i; simp [segsLoop, ih (i + 1)]

/-- If the cancellation event fires at some check index inside the input,
the loop stops strictly early. -/
theorem segsLoop_length_lt (cancel : Nat → Bool) :
    ∀ (raw : List RawSeg) (i : Nat),
      (∃ j, i ≤ j ∧ j < i + raw.length ∧ cancel j = true) →
      (segsLoop cancel i raw).length < raw.length := by
  intro raw
  induction raw with
  | nil =>
    intro i h
    obtain ⟨j, hij, hlt, _⟩ := h
    simp only [List.length_nil] at hlt
    omega
  | cons s rest ih =>
    intro i h
    by_cases hc : cancel i
    · simp [segsLoop, hc]
    · obtain ⟨j, hij, hlt, hcj⟩ := h
      have hji : j ≠ i := fun he => by rw [he] at hcj; rw [hcj] at hc; exact hc rfl
      have hrec := ih (i + 1)
        ⟨j, by omega, by simp only [List.length_cons] at hlt; omega, hcj⟩
      simp only [segsLoop, hc, if_false, Bool.false_eq_true, List.length_cons]
      omega

/-- Segments are consumed only at checks where the event was still unset. -/
theorem segsLoop_checks_unset (cancel : Nat → Bool) :
    ∀ (raw : List RawSeg) (i j : Nat), j < (segsLoop cancel i raw).length →
      cancel (i + j) = false := by
  intro raw
  induction raw with
  | nil =>
    intro i j h
    simp [segsLoop] at h
  | cons s rest ih =>
    intro i j h
    by_cases hc : cancel i
    · simp [segsLoop, hc] at h
    · cases j with
      | zero => simpa using Bool.of_not_eq_true hc
      | succ j' =>
        simp only [segsLoop, hc, if_false, Bool.false_eq_true, List.length_cons,
          Nat.add_lt_add_iff_right] at h
        have := ih (i + 1) j' h
        have harith : i + 1 + j' = i + (j' + 1) := by omega
        rw [harith] at this
        exact this

/-- C6: if the cancellation signal is raised mid-run (at some check index
before the raw segment sequence is exhausted), the canceled run's segment
sequence is a strict prefix — a `take` — of the uncanceled run's sequence
over the same input, in the same order, and no raw segment is consumed at
or after a check that observed the signal. -/
theorem c6_cancellation_strict_prefix (cancel : Nat → Bool) (raw : List RawSeg)
    (hmid : ∃ i, i < raw.length ∧ cancel i = true) :
    ∃ n, n < (segsLoop (fun _ => false) 0 raw).length ∧
      segsLoop cancel 0 raw = (segsLoop (fun _ => false) 0 raw).take n ∧
      (∀ j, j < n → cancel j = false) := by
  obtain ⟨i, hi, hci⟩ := hmid
  refine ⟨(segsLoop cancel 0 raw).length, ?_, segsLoop_eq_take cancel raw 0, ?_⟩
  · rw [segsLoop_full_length raw 0]
    exact segsLoop_length_lt cancel raw 0 ⟨i, by omega, by omega, hci⟩
  · intro j hj
    have := segsLoop_checks_unset cancel raw 0 j hj
    simpa using this

/-- Two raw segments used by the cancellation scenario. -/
def rawDemo : List RawSeg :=
  [{ start := 0, stop := 2, text := " hola " }, { start := 2, stop := 4, text := "adios" }]

theorem c6_cancellation_witness :
    ∃ n, n < (segsLoop (fun _ => false) 0 rawDemo).length ∧
      segsLoop (fun i => decide (1 ≤ i)) 0 rawDemo =
        (segsLoop (fun _ => false) 0 rawDemo).take n ∧
      (∀ j, j < n → decide (1 ≤ j) = false) :=
  c6_cancellation_strict_prefix (fun i => decide (1 ≤ i)) rawDemo ⟨1, by decide⟩

/-- C9: when filtering is requested (`vad=true`) but the VAD assets are
unavailable and the automatic fetch cannot make them available, the
effective filter is false: the run proceeds, the result reports
`vad_applied = false`, the job's metadata records the downgrade reason
`"missing_vad_assets"`, and the job still reaches COMPLETED. -/
theorem c9_vad_downgrade (st : JobStore) (t : TranscriberState) (job_id : String)
    (opt_model opt_device : String) (env : TranscribeEnv) (clock : Nat → Int)
    (r : JobRecord) (hr : dictGet job_id st.jobs = some r)
    (hvad : t.vad_available = false) (hfetch : env.fetchDetect.1 = false) :
    ∃ st' t' result,
      run_transcription_success st t job_id opt_model opt_device true env clock =
        some (st', t', result) ∧
      result.vad_applied = false ∧
      ∃ r', dictGet job_id st'.jobs = some r' ∧
        r'.status = JobStatus.COMPLETED ∧
        dictGet "vad_reason" r'.metadata = some (MVal.s "missing_vad_assets") := by
  have happlied : (t.transcribe opt_model opt_device true env).2.vad_applied = false := by
    simp only [TranscriberState.transcribe, TranscriberState.ensure_vad_assets]
    by_cases hat : t.attempted_vad_download <;> simp [hat, hvad, hfetch]
  simp only [run_transcription_success, JobStore.set_status, JobStore.set_progress,
    JobStore.mark_duration, JobStore.add_metadata, JobStore.attach_artifact, hr,
    dictGet_commit_self]
  refine ⟨_, _, _, rfl, happlied, ?_⟩
  refine ⟨_, dictGet_commit_self _ _ _, rfl, ?_⟩
  have hguard : (true && !(t.transcribe opt_model opt_device true env).2.vad_applied) =
      true := by rw [happlied]; rfl
  simp only [hguard, if_true, dictUpdate, List.cons_append, List.nil_append, List.foldl]
  rw [dictGet_dictSet_ne (show "missing_vad_assets" ≠ "vad_reason" by decide),
    dictGet_dictSet_self]

/-- The store of one QUEUED job awaiting transcription. -/
def storeQueued : JobStore := sampleStore [sampleJob "q1" 0 JobStatus.QUEUED 0]

/-- A transcriber whose Silero assets are missing. -/
def transcriberNoVad : TranscriberState :=
  { provider := provFresh
    vad_available := false
    missing_vad_assets := ["silero_encoder_v5.onnx", "silero_decoder_v5.onnx"] }

/-- A run environment in which the automatic fetch also fails. -/
def envNoVad : TranscribeEnv :=
  { torchCuda := false
    fetchDetect := (false, ["silero_encoder_v5.onnx", "silero_decoder_v5.onnx"])
    rawSegs := rawDemo
    duration := 4
    cancel := fun _ => false
    elapsed := 1
    corrector := none }

theorem c9_vad_downgrade_witness :
    ∃ st' t' result,
      run_transcription_success storeQueued transcriberNoVad "q1" "medium" "cpu" true
        envNoVad (fun n => Int.ofNat n) = some (st', t', result) ∧
      result.vad_applied = false ∧
      ∃ r', dictGet "q1" st'.jobs = some r' ∧
        r'.status = JobStatus.COMPLETED ∧
        dictGet "vad_reason" r'.metadata = some (MVal.s "missing_vad_assets") :=
  c9_vad_downgrade storeQueued transcriberNoVad "q1" "medium" "cpu" envNoVad
    (fun n => Int.ofNat n) (sampleJob "q1" 0 JobStatus.QUEUED 0) (by decide) rfl rfl
